import Mathlib

/-!
# Verification of the indico-migrate event-migration pipeline

A shallow embedding of the migration driver of `indico-migrate`:

* `src/indico_migrate/migrate.py` — the top-level driver precondition check
  (`db_has_data`, `setup`);
* `src/indico_migrate/steps/events/importer.py` — the event pipeline
  (`_get_all_steps`, `SkipEvent`, `_EventContextBase.create_event`,
  `_EventContextBase._fix_naive`, `EventContextFactory`,
  `EventImporter.migrate`, `EventImporter.migrate_event_data`);
* `src/indico_migrate/modules/global_settings.py` — IP mask normalisation
  (`GlobalSettingsImporter._to_network`).

Stateful Python code is embedded as explicit state passing; functions that can
raise return `Except`.  External collaborators (the indico library's
`is_legacy_id`, Python's `int()`, `pytz`, `ipaddress.ip_network`) are modelled
by small executable definitions whose doc comments say exactly what they model.
-/

/-- A console message emitted through the logger proxies
(`print_error` / `print_warning` / `print_success` in `cli.py` lines 196-223);
`event_id` is the optional per-message event identifier tag. -/
inductive LogMsg
  | error (msg : String) (event_id : Option String)
  | warning (msg : String) (event_id : Option String)
  | success (msg : String) (event_id : Option String)
deriving DecidableEq, Repr

/-- A Python `datetime.datetime`: calendar fields plus `tzinfo`.
`tzinfo = none` is a naive datetime; `tzinfo = some o` is an aware datetime
whose UTC offset is `o` minutes (so `some 60` renders as `+01:00`). -/
structure PyDateTime where
  year : Nat
  month : Nat
  day : Nat
  hour : Nat
  minute : Nat
  second : Nat
  tzinfo : Option Int
deriving DecidableEq, Repr

/-- Modelled from the spec: the external `pytz` timezone database, restricted
to the zones the spec exercises.  Returns the UTC offset in minutes of the
named zone at the given wall-clock time: `Europe/Zurich` is CET (+60) in
winter and CEST (+120) in summer (month granularity suffices for the spec's
examples); every other modelled zone, in particular `UTC`, has offset 0. -/
def pytz_utcoffset (tz : String) (dt : PyDateTime) : Int :=
  if tz = "Europe/Zurich" then
    (if 4 ≤ dt.month && dt.month ≤ 10 then 120 else 60)
  else 0

/-- Modelled from the spec: `pytz.timezone(tz).localize(dt)` — attach the
zone's UTC offset at that wall-clock time, keeping the calendar fields. -/
def pytz_localize (tz : String) (dt : PyDateTime) : PyDateTime :=
  { dt with tzinfo := some (pytz_utcoffset tz dt) }

/-- `_EventContextBase._fix_naive` (importer.py lines 121-126): a naive
datetime is localized to the event's timezone with a warning (the formatted
datetime argument of the message is elided); an aware datetime is returned
unchanged with no message. -/
def _fix_naive (dt : PyDateTime) (tz : String) : PyDateTime × List LogMsg :=
  match dt.tzinfo with
  | none => (pytz_localize tz dt, [LogMsg.warning "Naive datetime converted" none])
  | some _ => (dt, [])

/-- Modelled from the spec: the legacy-id-format predicate of the external
indico library (`indico.util.string.is_legacy_id`), stated as its complement:
an id string is a "modern" numeric id exactly when it is a canonical decimal
integer string (nonempty, digits only, no superfluous leading zero). -/
def isCanonicalIntString (s : String) : Bool :=
  !s.data.isEmpty && s.data.all Char.isDigit &&
    (s.data == ['0'] || s.data.head? != some '0')

/-- Modelled from the spec: `is_legacy_id` — an event id is legacy-format
unless it looks like a modern numeric id. -/
def is_legacy_id (s : String) : Bool := !(isCanonicalIntString s)

/-- Decimal value of a digit string. -/
def digitsToNat (l : List Char) : Nat :=
  l.foldl (fun a c => a * 10 + (c.toNat - '0'.toNat)) 0

/-- Modelled from the spec: Python `int()` on the id strings of the legacy
store — succeeds on nonempty decimal digit strings, raises `ValueError`
(`none`) otherwise.  (Signed or whitespace-padded forms do not occur.) -/
def pyInt (s : String) : Option Int :=
  if !s.data.isEmpty && s.data.all Char.isDigit then
    some (digitsToNat s.data)
  else none

/-- A raw legacy `Conference` record (the `conf` object of
`_EventContextBase`).  Fields read through `conf.__dict__` (`title`,
`description`, `timezone`, `startDate`, `endDate`) are dynamic and may be
absent, hence `Option`; `_closed` and `_Conference__owners` are read by plain
attribute access and are modelled as always present.  `owners` holds the ids
of the owner objects (`_Conference__owners[...].id`). -/
structure Conf where
  id : String
  title : Option String
  description : Option String
  timezone : Option String
  startDate : Option PyDateTime
  endDate : Option PyDateTime
  closed : Bool
  owners : List Nat
deriving DecidableEq, Repr

/-- The target `Event` row built by `create_event` (importer.py lines
107-115).  `category` is the id of the resolved parent category. -/
structure Event where
  id : Int
  title : String
  description : String
  timezone : String
  start_dt : PyDateTime
  end_dt : PyDateTime
  is_locked : Bool
  category : Nat
  is_deleted : Bool
deriving DecidableEq, Repr

/-- The exceptions `create_event` can raise: the recoverable `SkipEvent`
signal (importer.py lines 56-57, raised at lines 95 and 101), a `KeyError`
from a `__dict__[...]` access, or a `ValueError` from `int()`. -/
inductive CreateError
  | skipEvent
  | keyError (field : String)
  | valueError
deriving DecidableEq, Repr

/-- Outcome of one `create_event` call: the event-id counter after the call,
the console messages printed, the raised exception or built event, the
reserved `event_id` local (if id resolution succeeded) and the context's
`is_legacy` flag. -/
structure CreateResult where
  counter : Nat
  event_id : Option Int
  logs : List LogMsg
  result : Except CreateError Event
  is_legacy : Bool
deriving Repr

/-- importer.py line 98: `legacy_category_ids[conf._Conference__owners[0].id]`
wrapped in `except (IndexError, KeyError)` — `none` when the owners list is
empty or the first owner's id is not in the lookup. -/
def resolveCategory (lut : Nat → Option Nat) (conf : Conf) : Option Nat :=
  conf.owners.head? >>= fun o => lut o

/-- The body of `_EventContextBase.create_event` (importer.py lines 93-115)
after event-id resolution: title check, category resolution, then the
`Event(...)` construction, whose keyword arguments are evaluated in source
order (`description` / `startDate` / `endDate` accesses can raise `KeyError`;
naive datetimes pass through `_fix_naive`). -/
def create_event_core (lut : Nat → Option Nat) (conf : Conf) (event_id : Int)
    (counter : Nat) (is_leg : Bool) : CreateResult :=
  match conf.title with
  | none =>
    ⟨counter, some event_id, [LogMsg.error "Event has no title in ZODB" (some conf.id)],
      Except.error CreateError.skipEvent, is_leg⟩
  | some rawTitle =>
    match resolveCategory lut conf with
    | none =>
      ⟨counter, some event_id, [LogMsg.error "Event has no category!" (some conf.id)],
        Except.error CreateError.skipEvent, is_leg⟩
    | some parent_category =>
      let title := if rawTitle = "" then "(no title)" else rawTitle
      let tz := conf.timezone.getD "UTC"
      match conf.description with
      | none =>
        ⟨counter, some event_id, [LogMsg.success title none],
          Except.error (CreateError.keyError "description"), is_leg⟩
      | some desc =>
        match conf.startDate with
        | none =>
          ⟨counter, some event_id, [LogMsg.success title none],
            Except.error (CreateError.keyError "startDate"), is_leg⟩
        | some sd =>
          let ps := _fix_naive sd tz
          match conf.endDate with
          | none =>
            ⟨counter, some event_id, [LogMsg.success title none] ++ ps.2,
              Except.error (CreateError.keyError "endDate"), is_leg⟩
          | some ed =>
            let pe := _fix_naive ed tz
            ⟨counter, some event_id, [LogMsg.success title none] ++ ps.2 ++ pe.2,
              Except.ok ⟨event_id, title, desc, tz, ps.1, pe.1, conf.closed,
                parent_category, false⟩, is_leg⟩

/-- `_EventContextBase.create_event` (importer.py lines 86-115) with the
counter of `EventContextFactory` (lines 129-138) passed explicitly: a
legacy-format id draws `gen_event_id` (increments the run-wide counter and
uses the new value) and sets `is_legacy`; a modern id is cast with `int()`
and the counter is untouched. -/
def create_event (lut : Nat → Option Nat) (conf : Conf) (counter : Nat) : CreateResult :=
  if is_legacy_id conf.id then
    create_event_core lut conf ((counter + 1 : Nat) : Int) (counter + 1) true
  else
    match pyInt conf.id with
    | some n => create_event_core lut conf n counter false
    | none => ⟨counter, none, [], Except.error CreateError.valueError, false⟩

example :
    (create_event (fun n => if n == 1 then some 10 else none)
      { id := "a1", title := some "T", description := some "d", timezone := some "UTC",
        startDate := some ⟨2020, 1, 1, 9, 0, 0, some 0⟩,
        endDate := some ⟨2020, 1, 1, 11, 0, 0, some 0⟩,
        closed := false, owners := [1] } 4).counter = 5 := by decide

example :
    (create_event (fun n => if n == 1 then some 10 else none)
      { id := "37", title := none, description := none, timezone := none,
        startDate := none, endDate := none, closed := false, owners := [1] } 4).result
      = Except.error CreateError.skipEvent := rfl

/-- The event importer steps, one constructor per class returned by
`_get_all_steps` (importer.py lines 36-53). -/
inductive EventStep
  | EventMiscImporter | EventTypeImporter | EventACLImporter | EventLogImporter
  | EventSettingsImporter | EventPaymentSettingsImporter | EventAlarmImporter
  | EventImageImporter | EventLayoutImporter | EventShortUrlsImporter
  | EventMenuImporter | EventSurveyImporter | EventRegFormImporter
  | EventTracksImporter | EventParticipantsImporter | EventAbstractImporter
  | EventTimetableImporter | EventAttachmentsImporter | EventLegacyIdImporter
deriving DecidableEq, Repr

/-- `_get_all_steps` (importer.py lines 49-53): the fixed, hand-ordered step
sequence, in the order of the returned tuple. -/
def _get_all_steps : List EventStep :=
  [EventStep.EventMiscImporter, EventStep.EventTypeImporter, EventStep.EventACLImporter,
   EventStep.EventLogImporter, EventStep.EventSettingsImporter,
   EventStep.EventPaymentSettingsImporter, EventStep.EventAlarmImporter,
   EventStep.EventImageImporter, EventStep.EventLayoutImporter,
   EventStep.EventShortUrlsImporter, EventStep.EventMenuImporter,
   EventStep.EventSurveyImporter, EventStep.EventRegFormImporter,
   EventStep.EventTracksImporter, EventStep.EventParticipantsImporter,
   EventStep.EventAbstractImporter, EventStep.EventTimetableImporter,
   EventStep.EventAttachmentsImporter, EventStep.EventLegacyIdImporter]

/-- Observable actions of `migrate_event_data` (importer.py lines 170-192):
`setup()` calls, the `print_step` banner, console messages, `bind`+`run` of a
step on a created event (`run_step`, lines 117-119) and `teardown()` calls. -/
inductive MigAction
  | setupStep (s : EventStep)
  | stepMsg (msg : String)
  | log (m : LogMsg)
  | bindRun (s : EventStep) (eventId : Int)
  | teardownStep (s : EventStep)
deriving DecidableEq, Repr

/-- State threaded through the `for conf in committing_iterator(...)` loop of
`migrate_event_data`: the class-level `event_id_counter`, the values returned
by `gen_event_id` so far (`draws`, in call order), the action trace and the
successfully created events (paired with their context's `is_legacy` flag). -/
structure EventLoopState where
  counter : Nat
  draws : List Int
  trace : List MigAction
  events : List (Event × Bool)
deriving Repr

/-- State after processing one `conf` up to the end of `create_event`:
counter advanced, any `gen_event_id` draw recorded, console output appended. -/
def confUpdate (lut : Nat → Option Nat) (conf : Conf) (st : EventLoopState) :
    EventLoopState :=
  { counter := (create_event lut conf st.counter).counter,
    draws := st.draws ++
      (if is_legacy_id conf.id then [((create_event lut conf st.counter).counter : Int)] else []),
    trace := st.trace ++ (create_event lut conf st.counter).logs.map MigAction.log,
    events := st.events }

/-- State after a successful `create_event` followed by the
`for importer in importers: context.run_step(importer)` loop
(importer.py lines 187-189). -/
def okUpdate (lut : Nat → Option Nat) (conf : Conf) (ev : Event)
    (st : EventLoopState) : EventLoopState :=
  { confUpdate lut conf st with
    trace := (confUpdate lut conf st).trace ++
      _get_all_steps.map (fun s => MigAction.bindRun s ev.id),
    events := st.events ++ [(ev, (create_event lut conf st.counter).is_legacy)] }

/-- The event loop of `migrate_event_data` (importer.py lines 181-189):
`SkipEvent` is caught and the loop continues; any other exception propagates
(with the state at the point of failure); a created event runs every step in
the fixed order. -/
def eventLoop (lut : Nat → Option Nat) :
    EventLoopState → List Conf → Except (EventLoopState × CreateError) EventLoopState
  | st, [] => Except.ok st
  | st, conf :: rest =>
    match (create_event lut conf st.counter).result with
    | Except.error CreateError.skipEvent => eventLoop lut (confUpdate lut conf st) rest
    | Except.error e => Except.error (confUpdate lut conf st, e)
    | Except.ok ev => eventLoop lut (okUpdate lut conf ev st) rest

/-- State at the top of `migrate_event_data`: counter seeded from the legacy
store's `counters['CONFERENCE']` value (line 178), all steps `setup()` (lines
175-176), then the `print_step("Event data")` banner (line 180). -/
def initState (seed : Nat) : EventLoopState :=
  { counter := seed, draws := [],
    trace := _get_all_steps.map MigAction.setupStep ++ [MigAction.stepMsg "Event data"],
    events := [] }

/-- `EventImporter.migrate_event_data` (importer.py lines 170-192): setup,
event loop, then `teardown()` of every step (lines 191-192; not reached when
the loop body raises a non-skip exception). -/
def migrate_event_data (lut : Nat → Option Nat) (seed : Nat) (confs : List Conf) :
    Except (EventLoopState × CreateError) EventLoopState :=
  match eventLoop lut (initState seed) confs with
  | Except.ok st => Except.ok { st with trace := st.trace ++ _get_all_steps.map MigAction.teardownStep }
  | Except.error e => Except.error e

/-- Ids of the created events flagged as legacy, in creation order. -/
def legacyEventIds (events : List (Event × Bool)) : List Int :=
  (events.filter (fun p => p.2)).map (fun p => p.1.id)

/-- Database-level actions of `EventImporter.migrate`
(importer.py lines 154-168). -/
inductive DBAction
  | commit
  | rollback
  | execDisable (table : String)
  | execEnable (table : String)
  | migrateEvents
deriving DecidableEq, Repr

/-- The four tables whose `consistent_timetable` trigger is toggled
(importer.py line 156). -/
def trigger_tables : List String :=
  ["timetable_entries", "session_blocks", "contributions", "breaks"]

/-- `EventImporter.migrate` (importer.py lines 154-168) as the trace of
database actions it performs, parametrised by whether the
`migrate_event_data()` body raises; the Bool result records whether the
exception propagates out of `migrate` (the bare `raise` after rollback). -/
def EventImporter_migrate (bodyFails : Bool) : List DBAction × Bool :=
  let pre := DBAction.commit :: trigger_tables.map DBAction.execDisable
  if bodyFails then
    (pre ++ [DBAction.migrateEvents, DBAction.rollback] ++
      trigger_tables.map DBAction.execEnable, true)
  else
    (pre ++ [DBAction.migrateEvents, DBAction.commit] ++
      trigger_tables.map DBAction.execEnable ++ [DBAction.commit], false)

/-- The target store as seen by the driver's precondition check: whether each
of the five tables probed by `db_has_data` (migrate.py line 54) has rows, plus
whether the store holds any event record (not probed by `db_has_data`; under
the target schema an event row always references a category row). -/
structure TargetDB where
  hasCategory : Bool
  hasUser : Bool
  hasLocalGroup : Bool
  hasNewsItem : Bool
  hasIPNetworkGroup : Bool
  hasEvent : Bool
deriving DecidableEq, Repr

/-- `db_has_data` (migrate.py lines 52-58): true when any of the five probed
models has rows. -/
def db_has_data (tdb : TargetDB) : Bool :=
  tdb.hasCategory || tdb.hasUser || tdb.hasLocalGroup || tdb.hasNewsItem ||
    tdb.hasIPNetworkGroup

/-- Result of the precondition check in `setup` (migrate.py lines 84-93). -/
inductive SetupOutcome
  | aborted
  | proceed
deriving DecidableEq, Repr

/-- The precondition check of `setup` (migrate.py lines 84-93): with data in
the target store, the operator must type exactly `YES` at the prompt or the
process exits (`sys.exit(1)`). -/
def setup_check (tdb : TargetDB) (rawInput : String) : SetupOutcome :=
  if db_has_data tdb then
    (if rawInput = "YES" then SetupOutcome.proceed else SetupOutcome.aborted)
  else SetupOutcome.proceed

/-- The top-level migration phases run by `migrate` (migrate.py lines 42-49)
after `setup` returns. -/
inductive TopStep
  | GlobalPreEventsImporter | UserImporter | CategoryImporter | GlobalPostEventsImporter
deriving DecidableEq, Repr

/-- The driver `migrate` (migrate.py lines 37-49): `setup` runs its
precondition check first; an abort exits before any step, otherwise the four
top-level steps run. -/
def migrate_driver (tdb : TargetDB) (rawInput : String) : SetupOutcome × List TopStep :=
  match setup_check tdb rawInput with
  | SetupOutcome.aborted => (SetupOutcome.aborted, [])
  | SetupOutcome.proceed =>
    (SetupOutcome.proceed,
      [TopStep.GlobalPreEventsImporter, TopStep.UserImporter,
       TopStep.CategoryImporter, TopStep.GlobalPostEventsImporter])

/-- Remove trailing occurrences of `ch` (Python `str.rstrip(ch)`). -/
def rstripChar (ch : Char) (l : List Char) : List Char :=
  (l.reverse.dropWhile (fun c => c = ch)).reverse

/-- Python `str.split(sep)` on characters: splitting the empty string gives
one empty segment, like Python. -/
def splitOnChar (sep : Char) : List Char → List (List Char)
  | [] => [[]]
  | c :: rest =>
    if c = sep then [] :: splitOnChar sep rest
    else
      match splitOnChar sep rest with
      | [] => [[c]]
      | s :: ss => (c :: s) :: ss

/-- Python `sep.join(...)` on characters. -/
def joinWithChar (sep : Char) : List (List Char) → List Char
  | [] => []
  | [s] => s
  | s :: rest => s ++ sep :: joinWithChar sep rest

/-- `re.match(r'^[0-9.]+$', mask)` (global_settings.py line 150): nonempty,
digits and dots only. -/
def isV4MaskChars (l : List Char) : Bool :=
  !l.isEmpty && l.all (fun c => c.isDigit || c = '.')

/-- `re.match(r'^[0-9a-f:]+', mask)` (global_settings.py line 157): unanchored
at the end, so it only constrains the first character. -/
def isV6StartChars (l : List Char) : Bool :=
  match l with
  | [] => false
  | c :: _ => c.isDigit || ('a' ≤ c && c ≤ 'f') || c = ':'

/-- Modelled from the spec: one dotted-quad octet as parsed by the external
`ipaddress` library — one to three decimal digits with value at most 255. -/
def parseOctet (s : List Char) : Option Nat :=
  if !s.isEmpty && s.all Char.isDigit && s.length ≤ 3 then
    (if digitsToNat s ≤ 255 then some (digitsToNat s) else none)
  else none

/-- Hexadecimal digit value. -/
def hexVal (c : Char) : Nat :=
  if c.isDigit then c.toNat - '0'.toNat
  else if 'a' ≤ c && c ≤ 'f' then c.toNat - 'a'.toNat + 10
  else c.toNat - 'A'.toNat + 10

/-- Modelled from the spec: one IPv6 hextet as parsed by the external
`ipaddress` library — one to four hexadecimal digits.  (The `::` shorthand is
not modelled; the source itself notes its masks cannot contain `::`.) -/
def parseHextet (s : List Char) : Option Nat :=
  if !s.isEmpty && s.all (fun c => c.isDigit || ('a' ≤ c && c ≤ 'f') || ('A' ≤ c && c ≤ 'F'))
      && s.length ≤ 4 then
    some (s.foldl (fun a c => a * 16 + hexVal c) 0)
  else none

/-- All octets of a dotted-quad address, left to right (`none` as soon as one
is malformed). -/
def parseOctets : List (List Char) → Option (List Nat)
  | [] => some []
  | s :: rest =>
    match parseOctet s, parseOctets rest with
    | some o, some os => some (o :: os)
    | _, _ => none

/-- All hextets of an IPv6 address, left to right. -/
def parseHextets : List (List Char) → Option (List Nat)
  | [] => some []
  | s :: rest =>
    match parseHextet s, parseHextets rest with
    | some o, some os => some (o :: os)
    | _, _ => none

/-- An IP network value as produced by `ipaddress.ip_network`. -/
inductive IPNet
  | v4 (address : Nat) (prefixLen : Nat)
  | v6 (address : Nat) (prefixLen : Nat)
deriving DecidableEq, Repr

/-- Modelled from the spec: the external `ipaddress.ip_network` on a
dotted-quad address string with an explicit prefix length, in strict mode —
`none` is the `ValueError` raised on a malformed address, an out-of-range
prefix, or set host bits. -/
def ip_network_v4 (addr : List Char) (prefixLen : Nat) : Option IPNet :=
  let segs := splitOnChar '.' addr
  if segs.length = 4 then
    match parseOctets segs with
    | some octs =>
      let value := octs.foldl (fun a o => a * 256 + o) 0
      if prefixLen ≤ 32 && value % 2 ^ (32 - prefixLen) = 0 then
        some (IPNet.v4 value prefixLen)
      else none
    | none => none
  else none

/-- Modelled from the spec: the external `ipaddress.ip_network` on a
colon-separated IPv6 address string with an explicit prefix length, strict
mode, without the `::` shorthand. -/
def ip_network_v6 (addr : List Char) (prefixLen : Nat) : Option IPNet :=
  let segs := splitOnChar ':' addr
  if segs.length = 8 then
    match parseHextets segs with
    | some hexts =>
      let value := hexts.foldl (fun a o => a * 65536 + o) 0
      if prefixLen ≤ 128 && value % 2 ^ (128 - prefixLen) = 0 then
        some (IPNet.v6 value prefixLen)
      else none
    | none => none
  else none

/-- Body of `GlobalSettingsImporter._to_network` (global_settings.py lines
147-166) on the stripped mask characters.  `Except.error` is the uncaught
`ValueError` escaping from `ip_network`; `Except.ok (none, [...])` is the
"Skipped invalid mask" warning path returning `None`. -/
def toNetworkAux (mask : List Char) : Except String (Option IPNet × List LogMsg) :=
  if isV4MaskChars mask then
    let mask := rstripChar '.' mask
    let segments := splitOnChar '.' mask
    if segments.length ≤ 4 then
      let addr := joinWithChar '.' (segments ++ List.replicate (4 - segments.length) ['0'])
      match ip_network_v4 addr (8 * segments.length) with
      | some net => Except.ok (some net, [])
      | none => Except.error "ValueError"
    else
      Except.ok (none, [LogMsg.warning ("Skipped invalid mask: " ++ String.mk mask) none])
  else if isV6StartChars mask then
    let mask := rstripChar ':' mask
    let segments := splitOnChar ':' mask
    if segments.length ≤ 8 then
      let addr := joinWithChar ':' (segments ++ List.replicate (8 - segments.length) ['0'])
      match ip_network_v6 addr (16 * segments.length) with
      | some net => Except.ok (some net, [])
      | none => Except.error "ValueError"
    else
      Except.ok (none, [LogMsg.warning ("Skipped invalid mask: " ++ String.mk mask) none])
  else
    Except.ok (none, [LogMsg.warning ("Skipped invalid mask: " ++ String.mk mask) none])

/-- Python `str.strip()`: drop leading and trailing whitespace. -/
def pyStrip (l : List Char) : List Char :=
  ((l.dropWhile Char.isWhitespace).reverse.dropWhile Char.isWhitespace).reverse

/-- `GlobalSettingsImporter._to_network` (global_settings.py lines 147-166):
`convert_to_unicode(mask).strip()` then the branch on the mask's shape. -/
def _to_network (mask : String) : Except String (Option IPNet × List LogMsg) :=
  toNetworkAux (pyStrip mask.data)

example : _to_network "192.168" = Except.ok (some (IPNet.v4 3232235520 16), []) := rfl
example : _to_network "300" = Except.error "ValueError" := rfl
example : _to_network "192.168.1.2.3"
    = Except.ok (none, [LogMsg.warning "Skipped invalid mask: 192.168.1.2.3" none]) := rfl

theorem isCanonical_of_not_legacy {s : String} (h : is_legacy_id s = false) :
    isCanonicalIntString s = true := by
  unfold is_legacy_id at h
  simpa using h

theorem pyInt_of_modern {s : String} (h : is_legacy_id s = false) :
    pyInt s = some ((digitsToNat s.data : Nat) : Int) := by
  have hc := isCanonical_of_not_legacy h
  unfold isCanonicalIntString at hc
  simp only [Bool.and_eq_true] at hc
  unfold pyInt
  rw [if_pos]
  simp [hc.1.1, hc.1.2]

theorem create_event_core_counter (lut : Nat → Option Nat) (conf : Conf)
    (eid : Int) (c : Nat) (leg : Bool) :
    (create_event_core lut conf eid c leg).counter = c := by
  unfold create_event_core
  repeat' split
  all_goals rfl

theorem create_event_core_is_legacy (lut : Nat → Option Nat) (conf : Conf)
    (eid : Int) (c : Nat) (leg : Bool) :
    (create_event_core lut conf eid c leg).is_legacy = leg := by
  unfold create_event_core
  repeat' split
  all_goals rfl

theorem create_event_eq_core_legacy (lut : Nat → Option Nat) (conf : Conf) (c : Nat)
    (h : is_legacy_id conf.id = true) :
    create_event lut conf c = create_event_core lut conf ((c + 1 : Nat) : Int) (c + 1) true := by
  unfold create_event
  rw [if_pos h]

theorem create_event_eq_core_modern (lut : Nat → Option Nat) (conf : Conf) (c : Nat)
    (h : is_legacy_id conf.id = false) :
    create_event lut conf c
      = create_event_core lut conf ((digitsToNat conf.id.data : Nat) : Int) c false := by
  unfold create_event
  rw [if_neg (by simp [h]), pyInt_of_modern h]

theorem create_event_counter (lut : Nat → Option Nat) (conf : Conf) (c : Nat) :
    (create_event lut conf c).counter = if is_legacy_id conf.id then c + 1 else c := by
  cases h : is_legacy_id conf.id with
  | true => rw [create_event_eq_core_legacy lut conf c h, create_event_core_counter, if_pos rfl]
  | false => rw [create_event_eq_core_modern lut conf c h, create_event_core_counter]; simp

theorem create_event_is_legacy (lut : Nat → Option Nat) (conf : Conf) (c : Nat) :
    (create_event lut conf c).is_legacy = is_legacy_id conf.id := by
  cases h : is_legacy_id conf.id with
  | true => rw [create_event_eq_core_legacy lut conf c h, create_event_core_is_legacy]
  | false => rw [create_event_eq_core_modern lut conf c h, create_event_core_is_legacy]

theorem create_event_core_skip_iff (lut : Nat → Option Nat) (conf : Conf)
    (eid : Int) (c : Nat) (leg : Bool) :
    ((create_event_core lut conf eid c leg).result = Except.error CreateError.skipEvent)
      ↔ (conf.title = none ∨ resolveCategory lut conf = none) := by
  unfold create_event_core
  cases hT : conf.title with
  | none => simp
  | some t =>
    cases hR : resolveCategory lut conf with
    | none => simp
    | some p =>
      cases hD : conf.description with
      | none => simp
      | some d =>
        cases hS : conf.startDate with
        | none => simp
        | some sd =>
          cases hE : conf.endDate with
          | none => simp
          | some ed => simp

theorem create_event_skip_iff (lut : Nat → Option Nat) (conf : Conf) (c : Nat) :
    ((create_event lut conf c).result = Except.error CreateError.skipEvent)
      ↔ (conf.title = none ∨ resolveCategory lut conf = none) := by
  cases h : is_legacy_id conf.id with
  | true => rw [create_event_eq_core_legacy lut conf c h, create_event_core_skip_iff]
  | false => rw [create_event_eq_core_modern lut conf c h, create_event_core_skip_iff]

theorem create_event_core_logs_noTitle (lut : Nat → Option Nat) (conf : Conf)
    (eid : Int) (c : Nat) (leg : Bool) (h : conf.title = none) :
    (create_event_core lut conf eid c leg).logs
      = [LogMsg.error "Event has no title in ZODB" (some conf.id)] := by
  unfold create_event_core
  rw [h]

theorem create_event_core_logs_noCat (lut : Nat → Option Nat) (conf : Conf)
    (eid : Int) (c : Nat) (leg : Bool) (t : String)
    (hT : conf.title = some t) (hR : resolveCategory lut conf = none) :
    (create_event_core lut conf eid c leg).logs
      = [LogMsg.error "Event has no category!" (some conf.id)] := by
  unfold create_event_core
  rw [hT, hR]

theorem create_event_core_ok_shape (lut : Nat → Option Nat) (conf : Conf)
    (eid : Int) (c : Nat) (leg : Bool) (ev : Event)
    (hok : (create_event_core lut conf eid c leg).result = Except.ok ev) :
    ∃ t sd ed,
      conf.startDate = some sd ∧ conf.endDate = some ed ∧
      ev.id = eid ∧ ev.timezone = conf.timezone.getD "UTC" ∧
      ev.start_dt = (_fix_naive sd (conf.timezone.getD "UTC")).1 ∧
      ev.end_dt = (_fix_naive ed (conf.timezone.getD "UTC")).1 ∧
      (create_event_core lut conf eid c leg).logs
        = [LogMsg.success t none] ++ (_fix_naive sd (conf.timezone.getD "UTC")).2
            ++ (_fix_naive ed (conf.timezone.getD "UTC")).2 := by
  unfold create_event_core at hok ⊢
  cases hT : conf.title with
  | none => rw [hT] at hok; simp at hok
  | some t =>
    rw [hT] at hok
    cases hR : resolveCategory lut conf with
    | none => rw [hR] at hok; simp at hok
    | some p =>
      rw [hR] at hok
      cases hD : conf.description with
      | none => rw [hD] at hok; simp at hok
      | some d =>
        rw [hD] at hok
        cases hS : conf.startDate with
        | none => rw [hS] at hok; simp at hok
        | some sd =>
          rw [hS] at hok
          cases hE : conf.endDate with
          | none => rw [hE] at hok; simp at hok
          | some ed =>
            rw [hE] at hok
            simp only [Except.ok.injEq] at hok
            refine ⟨if t = "" then "(no title)" else t, sd, ed, rfl, rfl, ?_, ?_, ?_, ?_, ?_⟩
            · rw [← hok]
            · rw [← hok]
            · rw [← hok]
            · rw [← hok]
            · rfl

theorem create_event_core_event_id (lut : Nat → Option Nat) (conf : Conf)
    (eid : Int) (c : Nat) (leg : Bool) :
    (create_event_core lut conf eid c leg).event_id = some eid := by
  unfold create_event_core
  repeat' split
  all_goals rfl

theorem create_event_ok_shape (lut : Nat → Option Nat) (conf : Conf) (c : Nat) (ev : Event)
    (hok : (create_event lut conf c).result = Except.ok ev) :
    ∃ t sd ed,
      conf.startDate = some sd ∧ conf.endDate = some ed ∧
      ev.timezone = conf.timezone.getD "UTC" ∧
      ev.start_dt = (_fix_naive sd (conf.timezone.getD "UTC")).1 ∧
      ev.end_dt = (_fix_naive ed (conf.timezone.getD "UTC")).1 ∧
      (create_event lut conf c).logs
        = [LogMsg.success t none] ++ (_fix_naive sd (conf.timezone.getD "UTC")).2
            ++ (_fix_naive ed (conf.timezone.getD "UTC")).2 := by
  cases h : is_legacy_id conf.id with
  | true =>
    rw [create_event_eq_core_legacy lut conf c h] at hok ⊢
    obtain ⟨t, sd, ed, h1, h2, _, h4, h5, h6, h7⟩ :=
      create_event_core_ok_shape _ _ _ _ _ _ hok
    exact ⟨t, sd, ed, h1, h2, h4, h5, h6, h7⟩
  | false =>
    rw [create_event_eq_core_modern lut conf c h] at hok ⊢
    obtain ⟨t, sd, ed, h1, h2, _, h4, h5, h6, h7⟩ :=
      create_event_core_ok_shape _ _ _ _ _ _ hok
    exact ⟨t, sd, ed, h1, h2, h4, h5, h6, h7⟩

/-- Shared concrete category lookup for the witness runs: legacy category id 1
maps to target category 10. -/
def lutW : Nat → Option Nat := fun n => if n == 1 then some 10 else none

/-- A well-formed legacy-format-id record, used by witness runs. -/
def confLegacyW : Conf :=
  { id := "a1", title := some "T", description := some "d", timezone := some "UTC",
    startDate := some ⟨2020, 1, 1, 9, 0, 0, some 0⟩,
    endDate := some ⟨2020, 1, 1, 11, 0, 0, some 0⟩,
    closed := false, owners := [1] }

/-- A well-formed modern-numeric-id record, used by witness runs. -/
def confModernW : Conf := { confLegacyW with id := "37" }

/-- A record with no `title` attribute, used by witness runs. -/
def confNoTitleW : Conf := { confLegacyW with title := none }

/-- A record with naive start/end datetimes in the `Europe/Zurich` zone. -/
def confNaiveW : Conf :=
  { id := "a2", title := some "N", description := some "", timezone := some "Europe/Zurich",
    startDate := some ⟨2020, 1, 1, 10, 0, 0, none⟩,
    endDate := some ⟨2020, 1, 1, 12, 0, 0, none⟩,
    closed := false, owners := [1] }

/-- A record with no `timezone` attribute and a naive start datetime. -/
def confNoTzW : Conf :=
  { id := "a3", title := some "U", description := some "", timezone := none,
    startDate := some ⟨2020, 1, 1, 10, 0, 0, none⟩,
    endDate := some ⟨2020, 1, 1, 12, 0, 0, some 0⟩,
    closed := false, owners := [1] }

/-- The event of a successful `create_event` outcome (placeholder on error). -/
def evOf (r : CreateResult) : Event :=
  match r.result with
  | Except.ok e => e
  | Except.error _ =>
    ⟨0, "", "", "", ⟨0, 0, 0, 0, 0, 0, none⟩, ⟨0, 0, 0, 0, 0, 0, none⟩, false, 0, false⟩

/-- C3: for a legacy event whose identifier does not match the legacy-id
format, the created target event's identifier equals the legacy identifier
cast to an integer (`int(self.conf.id)`), no counter draw occurs, and the
context is not flagged as legacy (importer.py lines 86-91). -/
theorem C3_modern_id_used_directly (lut : Nat → Option Nat) (conf : Conf) (c : Nat) (ev : Event)
    (hmod : is_legacy_id conf.id = false)
    (hok : (create_event lut conf c).result = Except.ok ev) :
    pyInt conf.id = some ev.id ∧
    (create_event lut conf c).counter = c ∧
    (create_event lut conf c).is_legacy = false := by
  refine ⟨?_, ?_, ?_⟩
  · rw [create_event_eq_core_modern lut conf c hmod] at hok
    obtain ⟨t, sd, ed, _, _, hid, _⟩ := create_event_core_ok_shape _ _ _ _ _ _ hok
    rw [pyInt_of_modern hmod, hid]
  · rw [create_event_counter, hmod]
    simp
  · rw [create_event_is_legacy, hmod]

/-- C3 witness: the modern-id record "37" is created with event id 37, the
counter untouched and the legacy flag off. -/
theorem C3_witness :
    pyInt confModernW.id = some (evOf (create_event lutW confModernW 4)).id ∧
    (create_event lutW confModernW 4).counter = 4 ∧
    (create_event lutW confModernW 4).is_legacy = false :=
  C3_modern_id_used_directly lutW confModernW 4 (evOf (create_event lutW confModernW 4))
    (by decide) rfl

/-- C5: the synthetic-id counter is incremented exactly for legacy-format
ids, and the increment (the `gen_event_id` draw, importer.py lines 86-91)
happens before the title/category validation: whatever `create_event`'s
outcome — in particular on a `SkipEvent` — the counter advances by one iff
the id is legacy-format, and a legacy-format id always reserves the value
`counter + 1` as the `event_id` local. -/
theorem C5_counter_draw_before_validation (lut : Nat → Option Nat) (conf : Conf) (c : Nat) :
    (create_event lut conf c).counter = (if is_legacy_id conf.id then c + 1 else c) ∧
    (is_legacy_id conf.id = true →
      (create_event lut conf c).event_id = some ((c + 1 : Nat) : Int)) := by
  refine ⟨create_event_counter lut conf c, fun h => ?_⟩
  rw [create_event_eq_core_legacy lut conf c h, create_event_core_event_id]

/-- C5 witness: a legacy-format record with no title is skipped yet still
consumes the counter value 5; a skipped modern-id record consumes nothing. -/
theorem C5_witness :
    (create_event lutW confNoTitleW 4).event_id = some ((5 : Nat) : Int) ∧
    (create_event lutW confNoTitleW 4).counter = 5 ∧
    (create_event lutW { confNoTitleW with id := "37" } 4).counter = 4 := by
  refine ⟨(C5_counter_draw_before_validation lutW confNoTitleW 4).2 (by decide), ?_, ?_⟩
  · rw [(C5_counter_draw_before_validation lutW confNoTitleW 4).1]
    decide
  · rw [(C5_counter_draw_before_validation lutW { confNoTitleW with id := "37" } 4).1]
    decide

theorem _fix_naive_naive (dt : PyDateTime) (tz : String) (h : dt.tzinfo = none) :
    _fix_naive dt tz = (pytz_localize tz dt, [LogMsg.warning "Naive datetime converted" none]) := by
  unfold _fix_naive
  rw [h]

/-- C8: every naive datetime used as a created event's start or end timestamp
is localized to the event's own timezone with a warning emitted
(importer.py lines 111-112 and 121-126); in particular a naive
2020-01-01T10:00:00 under `Europe/Zurich` becomes 2020-01-01T10:00:00+01:00
(UTC offset +60 minutes). -/
theorem C8_naive_datetime_localized (lut : Nat → Option Nat) (conf : Conf) (c : Nat) (ev : Event)
    (hok : (create_event lut conf c).result = Except.ok ev) :
    (∀ sd, conf.startDate = some sd → sd.tzinfo = none →
        ev.start_dt = pytz_localize ev.timezone sd ∧
        LogMsg.warning "Naive datetime converted" none ∈ (create_event lut conf c).logs) ∧
    (∀ ed, conf.endDate = some ed → ed.tzinfo = none →
        ev.end_dt = pytz_localize ev.timezone ed ∧
        LogMsg.warning "Naive datetime converted" none ∈ (create_event lut conf c).logs) ∧
    pytz_localize "Europe/Zurich" ⟨2020, 1, 1, 10, 0, 0, none⟩
      = ⟨2020, 1, 1, 10, 0, 0, some 60⟩ := by
  obtain ⟨t, sd0, ed0, hS, hE, htz, hsdt, hedt, hlogs⟩ := create_event_ok_shape lut conf c ev hok
  refine ⟨?_, ?_, by decide⟩
  · intro sd hsd hna
    rw [hS] at hsd
    injection hsd with hsd
    subst hsd
    constructor
    · rw [hsdt, htz, _fix_naive_naive _ _ hna]
    · rw [hlogs, _fix_naive_naive _ _ hna]
      simp
  · intro ed hed hna
    rw [hE] at hed
    injection hed with hed
    subst hed
    constructor
    · rw [hedt, htz, _fix_naive_naive _ _ hna]
    · rw [hlogs, _fix_naive_naive _ _ hna]
      simp

/-- C8 witness: the naive-datetime record under `Europe/Zurich` gets its
start localized to the event timezone and the warning is printed. -/
theorem C8_witness :
    (evOf (create_event lutW confNaiveW 4)).start_dt
      = pytz_localize (evOf (create_event lutW confNaiveW 4)).timezone ⟨2020, 1, 1, 10, 0, 0, none⟩ ∧
    LogMsg.warning "Naive datetime converted" none ∈ (create_event lutW confNaiveW 4).logs :=
  (C8_naive_datetime_localized lutW confNaiveW 4 (evOf (create_event lutW confNaiveW 4))
    rfl).1 ⟨2020, 1, 1, 10, 0, 0, none⟩ rfl rfl

/-- C10: a legacy record whose raw attribute dictionary has no `timezone`
entry gets timezone `UTC` on the created event (`__dict__.get('timezone',
'UTC')`, importer.py line 106), so its naive start/end timestamps are
localized to UTC (offset 0). -/
theorem C10_missing_timezone_defaults_utc (lut : Nat → Option Nat) (conf : Conf)
    (c : Nat) (ev : Event) (hTz : conf.timezone = none)
    (hok : (create_event lut conf c).result = Except.ok ev) :
    ev.timezone = "UTC" ∧
    (∀ sd, conf.startDate = some sd → sd.tzinfo = none →
        ev.start_dt = pytz_localize "UTC" sd ∧ ev.start_dt.tzinfo = some 0) ∧
    (∀ ed, conf.endDate = some ed → ed.tzinfo = none →
        ev.end_dt = pytz_localize "UTC" ed ∧ ev.end_dt.tzinfo = some 0) := by
  obtain ⟨t, sd0, ed0, hS, hE, htz, hsdt, hedt, hlogs⟩ := create_event_ok_shape lut conf c ev hok
  have hUTC : conf.timezone.getD "UTC" = "UTC" := by rw [hTz]; rfl
  refine ⟨by rw [htz, hUTC], ?_, ?_⟩
  · intro sd hsd hna
    rw [hS] at hsd
    injection hsd with hsd
    subst hsd
    have h1 : ev.start_dt = pytz_localize "UTC" sd0 := by
      rw [hsdt, hUTC, _fix_naive_naive _ _ hna]
    exact ⟨h1, by rw [h1]; simp [pytz_localize, pytz_utcoffset]⟩
  · intro ed hed hna
    rw [hE] at hed
    injection hed with hed
    subst hed
    have h1 : ev.end_dt = pytz_localize "UTC" ed0 := by
      rw [hedt, hUTC, _fix_naive_naive _ _ hna]
    exact ⟨h1, by rw [h1]; simp [pytz_localize, pytz_utcoffset]⟩

/-- C10 witness: the record with no `timezone` attribute is created with
timezone `UTC` and its naive start is localized at offset 0. -/
theorem C10_witness :
    (evOf (create_event lutW confNoTzW 4)).timezone = "UTC" ∧
    (evOf (create_event lutW confNoTzW 4)).start_dt.tzinfo = some 0 :=
  ⟨(C10_missing_timezone_defaults_utc lutW confNoTzW 4
      (evOf (create_event lutW confNoTzW 4)) rfl rfl).1,
   ((C10_missing_timezone_defaults_utc lutW confNoTzW 4
      (evOf (create_event lutW confNoTzW 4)) rfl rfl).2.1
      ⟨2020, 1, 1, 10, 0, 0, none⟩ rfl rfl).2⟩

/-- C1: if the target store holds a pre-existing event record — which under
the target schema entails a category record, the first model probed by
`db_has_data` (migrate.py line 54) — and the operator does not type the
explicit `YES` override, the driver aborts in its precondition check
(migrate.py lines 84-93) before any migration step runs. -/
theorem C1_abort_on_preexisting_event (tdb : TargetDB) (rawInput : String)
    (href : tdb.hasEvent = true → tdb.hasCategory = true)
    (hev : tdb.hasEvent = true) (hno : rawInput ≠ "YES") :
    migrate_driver tdb rawInput = (SetupOutcome.aborted, []) := by
  have hc := href hev
  unfold migrate_driver setup_check db_has_data
  rw [hc]
  simp [hno]

/-- C1 witness: a store with one pre-existing event (and its category), with
the operator replying "no", aborts before any step. -/
theorem C1_witness :
    migrate_driver ⟨true, false, false, false, false, true⟩ "no"
      = (SetupOutcome.aborted, []) :=
  C1_abort_on_preexisting_event ⟨true, false, false, false, false, true⟩ "no"
    (fun _ => rfl) rfl (by decide)

/-- C6: in `EventImporter.migrate` (importer.py lines 154-168) the four
timetable consistency triggers are disabled before the event loop and
re-enabled on every exit path; when the loop body raises, the transaction is
rolled back and the exception propagates only after the `finally` block has
re-enabled the triggers (the trace ends with the four enables). -/
theorem C6_triggers_restored_on_all_paths (b : Bool) :
    (∀ t ∈ trigger_tables,
        (EventImporter_migrate b).1.indexOf (DBAction.execDisable t)
          < (EventImporter_migrate b).1.indexOf DBAction.migrateEvents ∧
        DBAction.execEnable t ∈ (EventImporter_migrate b).1) ∧
    (b = true →
      (EventImporter_migrate b).2 = true ∧
      DBAction.rollback ∈ (EventImporter_migrate b).1 ∧
      (∀ t ∈ trigger_tables,
        (EventImporter_migrate b).1.indexOf DBAction.rollback
          < (EventImporter_migrate b).1.indexOf (DBAction.execEnable t)) ∧
      (EventImporter_migrate b).1.drop ((EventImporter_migrate b).1.length - 4)
        = trigger_tables.map DBAction.execEnable) := by
  cases b <;> decide

/-- C6 witness: on the failing path the exception propagates, rollback
happens, and the `breaks` trigger is re-enabled. -/
theorem C6_witness :
    DBAction.execEnable "breaks" ∈ (EventImporter_migrate true).1 ∧
    (EventImporter_migrate true).2 = true ∧
    DBAction.rollback ∈ (EventImporter_migrate true).1 :=
  ⟨((C6_triggers_restored_on_all_paths true).1 "breaks" (by decide)).2,
   ((C6_triggers_restored_on_all_paths true).2 rfl).1,
   ((C6_triggers_restored_on_all_paths true).2 rfl).2.1⟩

/-- C4: `create_event` signals a skip exactly when the raw record has no
`title` attribute or its owning category cannot be resolved (importer.py
lines 93-101); in both cases an error naming the record's id is printed, the
title check runs first (with both failing, the title error is the one
logged), and in the event loop a skipped record adds no created event, only
its console output, before the loop continues with the next record
(importer.py lines 183-186). -/
theorem C4_skip_exactly_on_title_or_category (lut : Nat → Option Nat) (conf : Conf)
    (c : Nat) (r : CreateResult) (hr : create_event lut conf c = r) :
    (r.result = Except.error CreateError.skipEvent
      ↔ (conf.title = none ∨ resolveCategory lut conf = none)) ∧
    (conf.title = none →
      r.logs = [LogMsg.error "Event has no title in ZODB" (some conf.id)]) ∧
    (conf.title ≠ none → resolveCategory lut conf = none →
      r.logs = [LogMsg.error "Event has no category!" (some conf.id)]) ∧
    (∀ st rest, st.counter = c → r.result = Except.error CreateError.skipEvent →
      eventLoop lut st (conf :: rest) = eventLoop lut (confUpdate lut conf st) rest ∧
      (confUpdate lut conf st).events = st.events ∧
      (confUpdate lut conf st).trace = st.trace ++ r.logs.map MigAction.log) := by
  subst hr
  refine ⟨create_event_skip_iff lut conf c, ?_, ?_, ?_⟩
  · intro hT
    cases h : is_legacy_id conf.id with
    | true =>
      rw [create_event_eq_core_legacy lut conf c h,
        create_event_core_logs_noTitle _ _ _ _ _ hT]
    | false =>
      rw [create_event_eq_core_modern lut conf c h,
        create_event_core_logs_noTitle _ _ _ _ _ hT]
  · intro hT hR
    obtain ⟨t, ht⟩ := Option.ne_none_iff_exists'.mp hT
    cases h : is_legacy_id conf.id with
    | true =>
      rw [create_event_eq_core_legacy lut conf c h,
        create_event_core_logs_noCat _ _ _ _ _ t ht hR]
    | false =>
      rw [create_event_eq_core_modern lut conf c h,
        create_event_core_logs_noCat _ _ _ _ _ t ht hR]
  · intro st rest hc hskip
    rw [← hc] at hskip
    refine ⟨?_, rfl, ?_⟩
    · conv_lhs => rw [eventLoop]
      rw [hskip]
    · unfold confUpdate
      rw [hc]

/-- C4 witness: the no-title record is skipped (and only for that reason),
with the title error logged under its id. -/
theorem C4_witness :
    ((create_event lutW confNoTitleW 4).result = Except.error CreateError.skipEvent
      ↔ (confNoTitleW.title = none ∨ resolveCategory lutW confNoTitleW = none)) ∧
    (create_event lutW confNoTitleW 4).logs
      = [LogMsg.error "Event has no title in ZODB" (some confNoTitleW.id)] :=
  ⟨(C4_skip_exactly_on_title_or_category lutW confNoTitleW 4 _ rfl).1,
   (C4_skip_exactly_on_title_or_category lutW confNoTitleW 4 _ rfl).2.1 rfl⟩

theorem create_event_legacy_ok_id (lut : Nat → Option Nat) (conf : Conf) (c : Nat)
    (ev : Event) (hleg : is_legacy_id conf.id = true)
    (hok : (create_event lut conf c).result = Except.ok ev) :
    ev.id = ((c + 1 : Nat) : Int) := by
  rw [create_event_eq_core_legacy lut conf c hleg] at hok
  obtain ⟨t, sd, ed, _, _, hid, _⟩ := create_event_core_ok_shape _ _ _ _ _ _ hok
  exact hid

theorem legacyEventIds_append_true (l : List (Event × Bool)) (ev : Event) :
    legacyEventIds (l ++ [(ev, true)]) = legacyEventIds l ++ [ev.id] := by
  simp [legacyEventIds]

theorem legacyEventIds_append_false (l : List (Event × Bool)) (ev : Event) :
    legacyEventIds (l ++ [(ev, false)]) = legacyEventIds l := by
  simp [legacyEventIds]

/-- Invariant carried through the event loop for the synthetic-id claims:
the run-wide counter never falls below the seed, the draws recorded so far
are strictly increasing and lie in the interval (seed, counter], and the ids
of the events created as legacy form a sublist of the draws. -/
def DrawsInv (seed : Nat) (st : EventLoopState) : Prop :=
  seed ≤ st.counter ∧
  List.Chain' (· < ·) st.draws ∧
  (∀ d ∈ st.draws, (seed : Int) < d ∧ d ≤ (st.counter : Int)) ∧
  (legacyEventIds st.events).Sublist st.draws

theorem confUpdate_counter_modern (lut : Nat → Option Nat) (conf : Conf)
    (st : EventLoopState) (hleg : is_legacy_id conf.id = false) :
    (confUpdate lut conf st).counter = st.counter := by
  simp [confUpdate, create_event_counter, hleg]

theorem confUpdate_draws_modern (lut : Nat → Option Nat) (conf : Conf)
    (st : EventLoopState) (hleg : is_legacy_id conf.id = false) :
    (confUpdate lut conf st).draws = st.draws := by
  simp [confUpdate, hleg]

theorem confUpdate_counter_legacy (lut : Nat → Option Nat) (conf : Conf)
    (st : EventLoopState) (hleg : is_legacy_id conf.id = true) :
    (confUpdate lut conf st).counter = st.counter + 1 := by
  simp [confUpdate, create_event_counter, hleg]

theorem confUpdate_draws_legacy (lut : Nat → Option Nat) (conf : Conf)
    (st : EventLoopState) (hleg : is_legacy_id conf.id = true) :
    (confUpdate lut conf st).draws = st.draws ++ [((st.counter + 1 : Nat) : Int)] := by
  simp [confUpdate, hleg, create_event_counter]

theorem confUpdate_drawsInv (lut : Nat → Option Nat) (conf : Conf) (seed : Nat)
    (st : EventLoopState) (h : DrawsInv seed st) :
    DrawsInv seed (confUpdate lut conf st) := by
  obtain ⟨h1, h2, h3, h4⟩ := h
  cases hleg : is_legacy_id conf.id with
  | false =>
    refine ⟨?_, ?_, ?_, ?_⟩
    · rw [confUpdate_counter_modern lut conf st hleg]; exact h1
    · rw [confUpdate_draws_modern lut conf st hleg]; exact h2
    · rw [confUpdate_draws_modern lut conf st hleg,
        confUpdate_counter_modern lut conf st hleg]; exact h3
    · rw [confUpdate_draws_modern lut conf st hleg]; exact h4
  | true =>
    refine ⟨?_, ?_, ?_, ?_⟩
    · rw [confUpdate_counter_legacy lut conf st hleg]
      exact h1.trans (Nat.le_succ _)
    · rw [confUpdate_draws_legacy lut conf st hleg]
      refine List.chain'_append.mpr ⟨h2, List.chain'_singleton _, ?_⟩
      intro x hx y hy
      simp only [List.head?_cons, Option.mem_def, Option.some.injEq] at hy
      obtain ⟨hne, hxe⟩ := List.mem_getLast?_eq_getLast hx
      have hxmem : x ∈ st.draws := hxe ▸ List.getLast_mem hne
      have hxle : x ≤ (st.counter : Int) := (h3 x hxmem).2
      rw [← hy]
      calc x ≤ (st.counter : Int) := hxle
        _ < ((st.counter + 1 : Nat) : Int) := by exact_mod_cast Nat.lt_succ_self _
    · rw [confUpdate_draws_legacy lut conf st hleg,
        confUpdate_counter_legacy lut conf st hleg]
      intro d hd
      rcases List.mem_append.mp hd with hold | hnew
      · exact ⟨(h3 d hold).1, (h3 d hold).2.trans (by exact_mod_cast Nat.le_succ _)⟩
      · simp only [List.mem_singleton] at hnew
        subst hnew
        constructor
        · exact_mod_cast Nat.lt_succ_of_le h1
        · exact le_refl _
    · rw [confUpdate_draws_legacy lut conf st hleg]
      exact h4.trans (List.sublist_append_left _ _)

theorem okUpdate_drawsInv (lut : Nat → Option Nat) (conf : Conf) (ev : Event)
    (seed : Nat) (st : EventLoopState) (h : DrawsInv seed st)
    (hok : (create_event lut conf st.counter).result = Except.ok ev) :
    DrawsInv seed (okUpdate lut conf ev st) := by
  obtain ⟨h1, h2, h3, h4⟩ := confUpdate_drawsInv lut conf seed st h
  refine ⟨h1, h2, h3, ?_⟩
  cases hleg : is_legacy_id conf.id with
  | false =>
    have hil : (create_event lut conf st.counter).is_legacy = false := by
      rw [create_event_is_legacy, hleg]
    have he : (okUpdate lut conf ev st).events = st.events ++ [(ev, false)] := by
      simp [okUpdate, hil]
    have hd : (okUpdate lut conf ev st).draws = (confUpdate lut conf st).draws := rfl
    rw [he, legacyEventIds_append_false, hd]
    exact h4
  | true =>
    have hil : (create_event lut conf st.counter).is_legacy = true := by
      rw [create_event_is_legacy, hleg]
    have he : (okUpdate lut conf ev st).events = st.events ++ [(ev, true)] := by
      simp [okUpdate, hil]
    have hd : (okUpdate lut conf ev st).draws = (confUpdate lut conf st).draws := rfl
    rw [he, legacyEventIds_append_true, hd, confUpdate_draws_legacy lut conf st hleg,
      create_event_legacy_ok_id lut conf st.counter ev hleg hok]
    exact List.Sublist.append h.2.2.2 (List.Sublist.refl _)

theorem eventLoop_drawsInv (lut : Nat → Option Nat) (seed : Nat) :
    ∀ (confs : List Conf) (st st' : EventLoopState), DrawsInv seed st →
      eventLoop lut st confs = Except.ok st' → DrawsInv seed st' := by
  intro confs
  induction confs with
  | nil =>
    intro st st' h heq
    rw [eventLoop] at heq
    cases heq
    exact h
  | cons conf rest ih =>
    intro st st' h heq
    rw [eventLoop] at heq
    cases hres : (create_event lut conf st.counter).result with
    | ok ev =>
      rw [hres] at heq
      exact ih _ st' (okUpdate_drawsInv lut conf ev seed st h hres) heq
    | error e =>
      rw [hres] at heq
      cases e with
      | skipEvent => exact ih _ st' (confUpdate_drawsInv lut conf seed st h) heq
      | keyError f => simp at heq
      | valueError => simp at heq

/-- C2: over one `migrate_event_data` run seeded from the legacy store's
event-counter value, every legacy-format event draws from the single
run-wide counter (importer.py lines 86-89, 129-138, 178): the draws are
strictly increasing in iteration order, all lie strictly above the seed,
the ids of the created legacy events are a sublist of the draws, and hence
no two legacy-format events receive the same identifier. -/
theorem C2_draws_strictly_increasing_unique (lut : Nat → Option Nat) (seed : Nat)
    (confs : List Conf) (st : EventLoopState)
    (h : migrate_event_data lut seed confs = Except.ok st) :
    List.Chain' (· < ·) st.draws ∧ st.draws.Nodup ∧
    (∀ d ∈ st.draws, (seed : Int) < d) ∧
    (legacyEventIds st.events).Sublist st.draws ∧
    (legacyEventIds st.events).Nodup := by
  unfold migrate_event_data at h
  cases hrun : eventLoop lut (initState seed) confs with
  | error e => rw [hrun] at h; simp at h
  | ok st0 =>
    rw [hrun] at h
    simp only [Except.ok.injEq] at h
    have hinv0 : DrawsInv seed (initState seed) := by
      refine ⟨le_refl _, List.chain'_nil, ?_, ?_⟩ <;> simp [initState, legacyEventIds]
    have hinv := eventLoop_drawsInv lut seed confs (initState seed) st0 hinv0 hrun
    obtain ⟨h1, h2, h3, h4⟩ := hinv
    have hst_draws : st.draws = st0.draws := by rw [← h]
    have hst_events : st.events = st0.events := by rw [← h]
    have hchain : List.Chain' (· < ·) st.draws := by rw [hst_draws]; exact h2
    have hnodup : st.draws.Nodup := by
      have hp : st.draws.Pairwise (· < ·) := List.chain'_iff_pairwise.mp hchain
      exact hp.imp (fun hlt => ne_of_lt hlt)
    have hsub : (legacyEventIds st.events).Sublist st.draws := by
      rw [hst_draws, hst_events]; exact h4
    refine ⟨hchain, hnodup, ?_, hsub, hsub.nodup hnodup⟩
    intro d hd
    rw [hst_draws] at hd
    exact (h3 d hd).1

/-- Concrete input list for the C2 witness run: two created legacy events,
one skipped legacy event and one modern-id event. -/
def c2ConfsW : List Conf :=
  [confLegacyW, confNoTitleW, confModernW, { confLegacyW with id := "b7" }]

/-- Final state of the C2 witness run. -/
def c2StateW : EventLoopState :=
  match migrate_event_data lutW 4 c2ConfsW with
  | Except.ok st => st
  | Except.error p => p.1

/-- C2 witness: the witness run's draws are strictly increasing and the
created legacy events' ids are pairwise distinct. -/
theorem C2_witness :
    List.Chain' (· < ·) c2StateW.draws ∧ (legacyEventIds c2StateW.events).Nodup :=
  ⟨(C2_draws_strictly_increasing_unique lutW 4 c2ConfsW c2StateW rfl).1,
   (C2_draws_strictly_increasing_unique lutW 4 c2ConfsW c2StateW rfl).2.2.2.2⟩

/-- Actions the event-loop body may emit (console output and step runs). -/
def isBodyAction : MigAction → Bool
  | MigAction.log _ => true
  | MigAction.bindRun _ _ => true
  | _ => false

/-- Recognizer for `bind`+`run` actions. -/
def isBindRun : MigAction → Bool
  | MigAction.bindRun _ _ => true
  | _ => false

theorem filter_isBindRun_map_log (l : List LogMsg) :
    (l.map MigAction.log).filter isBindRun = [] := by
  induction l with
  | nil => rfl
  | cons m l ih => simp [isBindRun, ih]

theorem filter_isBindRun_chunk (i : Int) (steps : List EventStep) :
    (steps.map (fun s => MigAction.bindRun s i)).filter isBindRun
      = steps.map (fun s => MigAction.bindRun s i) := by
  induction steps with
  | nil => rfl
  | cons s steps ih => simp [isBindRun, ih]

theorem filter_isBindRun_setup (steps : List EventStep) :
    (steps.map MigAction.setupStep).filter isBindRun = [] := by
  induction steps with
  | nil => rfl
  | cons s steps ih => simp [isBindRun, ih]

theorem filter_isBindRun_teardown (steps : List EventStep) :
    (steps.map MigAction.teardownStep).filter isBindRun = [] := by
  induction steps with
  | nil => rfl
  | cons s steps ih => simp [isBindRun, ih]

theorem eventLoop_shape (lut : Nat → Option Nat) :
    ∀ (confs : List Conf) (st st' : EventLoopState),
      eventLoop lut st confs = Except.ok st' →
      ∃ news extra, st'.events = st.events ++ news ∧
        st'.trace = st.trace ++ extra ∧
        (∀ a ∈ extra, isBodyAction a = true) ∧
        extra.filter isBindRun
          = (news.map (fun p => _get_all_steps.map (fun s => MigAction.bindRun s p.1.id))).flatten := by
  intro confs
  induction confs with
  | nil =>
    intro st st' heq
    rw [eventLoop] at heq
    cases heq
    exact ⟨[], [], by simp, by simp, by simp, by simp⟩
  | cons conf rest ih =>
    intro st st' heq
    rw [eventLoop] at heq
    cases hres : (create_event lut conf st.counter).result with
    | ok ev =>
      rw [hres] at heq
      obtain ⟨news, extra, he, ht, hbody, hfilt⟩ := ih _ st' heq
      refine ⟨(ev, (create_event lut conf st.counter).is_legacy) :: news,
        ((create_event lut conf st.counter).logs.map MigAction.log ++
          _get_all_steps.map (fun s => MigAction.bindRun s ev.id)) ++ extra, ?_, ?_, ?_, ?_⟩
      · rw [he]
        show st.events ++ [(ev, (create_event lut conf st.counter).is_legacy)] ++ news = _
        simp
      · rw [ht]
        show (st.trace ++ (create_event lut conf st.counter).logs.map MigAction.log ++
          _get_all_steps.map (fun s => MigAction.bindRun s ev.id)) ++ extra = _
        simp
      · intro a ha
        rcases List.mem_append.mp ha with h1 | h1
        · rcases List.mem_append.mp h1 with h2 | h2
          · obtain ⟨m, _, hm⟩ := List.mem_map.mp h2
            rw [← hm]; rfl
          · obtain ⟨s, _, hs⟩ := List.mem_map.mp h2
            rw [← hs]; rfl
        · exact hbody a h1
      · rw [List.filter_append, List.filter_append, filter_isBindRun_map_log,
          filter_isBindRun_chunk, hfilt]
        simp
    | error e =>
      rw [hres] at heq
      cases e with
      | skipEvent =>
        obtain ⟨news, extra, he, ht, hbody, hfilt⟩ := ih _ st' heq
        refine ⟨news, (create_event lut conf st.counter).logs.map MigAction.log ++ extra,
          ?_, ?_, ?_, ?_⟩
        · rw [he]; rfl
        · rw [ht]
          show (st.trace ++ (create_event lut conf st.counter).logs.map MigAction.log) ++ extra = _
          simp
        · intro a ha
          rcases List.mem_append.mp ha with h1 | h1
          · obtain ⟨m, _, hm⟩ := List.mem_map.mp h1
            rw [← hm]; rfl
          · exact hbody a h1
        · rw [List.filter_append, filter_isBindRun_map_log, hfilt]
          simp
      | keyError f => simp at heq
      | valueError => simp at heq

/-- C7: in every completed `migrate_event_data` run the trace is exactly: each
step's `setup()` once (in the declared order), the step banner, a body of
console output and per-event step runs, then each step's `teardown()` once
(importer.py lines 170-192); the `bind`+`run` actions of the body are exactly,
for each successfully created event in order, every step of `_get_all_steps`
exactly once in the fixed declared order; and that order places misc/type
before ACLs before layout before menus before surveys before registration
forms before tracks before participants before abstracts before timetable
before attachments before legacy-id fixups. -/
theorem C7_pipeline_order_and_lifecycle (lut : Nat → Option Nat) (seed : Nat)
    (confs : List Conf) (st : EventLoopState)
    (h : migrate_event_data lut seed confs = Except.ok st) :
    (∃ body, st.trace = _get_all_steps.map MigAction.setupStep
        ++ [MigAction.stepMsg "Event data"] ++ body
        ++ _get_all_steps.map MigAction.teardownStep ∧
      ∀ a ∈ body, isBodyAction a = true) ∧
    st.trace.filter isBindRun
      = (st.events.map (fun p => _get_all_steps.map (fun s => MigAction.bindRun s p.1.id))).flatten ∧
    _get_all_steps.Nodup ∧
    (_get_all_steps.indexOf EventStep.EventMiscImporter
        < _get_all_steps.indexOf EventStep.EventACLImporter ∧
      _get_all_steps.indexOf EventStep.EventTypeImporter
        < _get_all_steps.indexOf EventStep.EventACLImporter ∧
      _get_all_steps.indexOf EventStep.EventACLImporter
        < _get_all_steps.indexOf EventStep.EventLayoutImporter ∧
      _get_all_steps.indexOf EventStep.EventLayoutImporter
        < _get_all_steps.indexOf EventStep.EventMenuImporter ∧
      _get_all_steps.indexOf EventStep.EventMenuImporter
        < _get_all_steps.indexOf EventStep.EventSurveyImporter ∧
      _get_all_steps.indexOf EventStep.EventSurveyImporter
        < _get_all_steps.indexOf EventStep.EventRegFormImporter ∧
      _get_all_steps.indexOf EventStep.EventRegFormImporter
        < _get_all_steps.indexOf EventStep.EventTracksImporter ∧
      _get_all_steps.indexOf EventStep.EventTracksImporter
        < _get_all_steps.indexOf EventStep.EventParticipantsImporter ∧
      _get_all_steps.indexOf EventStep.EventParticipantsImporter
        < _get_all_steps.indexOf EventStep.EventAbstractImporter ∧
      _get_all_steps.indexOf EventStep.EventAbstractImporter
        < _get_all_steps.indexOf EventStep.EventTimetableImporter ∧
      _get_all_steps.indexOf EventStep.EventTimetableImporter
        < _get_all_steps.indexOf EventStep.EventAttachmentsImporter ∧
      _get_all_steps.indexOf EventStep.EventAttachmentsImporter
        < _get_all_steps.indexOf EventStep.EventLegacyIdImporter) := by
  unfold migrate_event_data at h
  cases hrun : eventLoop lut (initState seed) confs with
  | error e => rw [hrun] at h; simp at h
  | ok st0 =>
    rw [hrun] at h
    simp only [Except.ok.injEq] at h
    obtain ⟨news, extra, he, ht, hbody, hfilt⟩ := eventLoop_shape lut confs (initState seed) st0 hrun
    have hst_trace : st.trace = st0.trace ++ _get_all_steps.map MigAction.teardownStep := by
      rw [← h]
    have hst_events : st.events = st0.events := by rw [← h]
    have hinit_events : (initState seed).events = [] := rfl
    have hinit_trace : (initState seed).trace
        = _get_all_steps.map MigAction.setupStep ++ [MigAction.stepMsg "Event data"] := rfl
    refine ⟨⟨extra, ?_, hbody⟩, ?_, by decide, by decide⟩
    · rw [hst_trace, ht, hinit_trace]
    · rw [hst_trace, ht, hinit_trace, hst_events, he, hinit_events]
      rw [List.append_assoc, List.filter_append, List.filter_append, List.filter_append,
        filter_isBindRun_setup, filter_isBindRun_teardown, hfilt]
      simp [isBindRun]

/-- Input list for the C7 witness run: one created event, one skipped. -/
def c7ConfsW : List Conf := [confLegacyW, confNoTitleW]

/-- Final state of the C7 witness run. -/
def c7StateW : EventLoopState :=
  match migrate_event_data lutW 0 c7ConfsW with
  | Except.ok st => st
  | Except.error p => p.1

/-- C7 witness: on the witness run the step list is duplicate-free and the
`bind`+`run` actions are exactly one full step pass per created event. -/
theorem C7_witness :
    _get_all_steps.Nodup ∧
    c7StateW.trace.filter isBindRun
      = (c7StateW.events.map
          (fun p => _get_all_steps.map (fun s => MigAction.bindRun s p.1.id))).flatten :=
  ⟨(C7_pipeline_order_and_lifecycle lutW 0 c7ConfsW c7StateW rfl).2.2.1,
   (C7_pipeline_order_and_lifecycle lutW 0 c7ConfsW c7StateW rfl).2.1⟩

theorem splitOnChar_ne_nil (sep : Char) (l : List Char) : splitOnChar sep l ≠ [] := by
  induction l with
  | nil => simp [splitOnChar]
  | cons c rest ih =>
    unfold splitOnChar
    split
    · simp
    · cases h : splitOnChar sep rest with
      | nil => simp
      | cons s ss => simp

theorem splitOnChar_sepFree (sep : Char) (a : List Char) (hfree : sep ∉ a) :
    splitOnChar sep a = [a] := by
  induction a with
  | nil => rfl
  | cons c rest ih =>
    have hc : ¬c = sep := fun h => hfree (h ▸ List.mem_cons_self c rest)
    have hrest : sep ∉ rest := fun h => hfree (List.mem_cons_of_mem c h)
    unfold splitOnChar
    rw [if_neg hc, ih hrest]

theorem splitOnChar_append_sep (sep : Char) (a t : List Char) (hfree : sep ∉ a) :
    splitOnChar sep (a ++ sep :: t) = a :: splitOnChar sep t := by
  induction a with
  | nil =>
    show splitOnChar sep (sep :: t) = [] :: splitOnChar sep t
    conv_lhs => rw [splitOnChar]
    rw [if_pos rfl]
  | cons c rest ih =>
    have hc : ¬c = sep := fun h => hfree (h ▸ List.mem_cons_self c rest)
    have hrest : sep ∉ rest := fun h => hfree (List.mem_cons_of_mem c h)
    show splitOnChar sep (c :: (rest ++ sep :: t)) = (c :: rest) :: splitOnChar sep t
    conv_lhs => rw [splitOnChar]
    rw [if_neg hc, ih hrest]

theorem splitOnChar_joinWithChar (sep : Char) :
    ∀ (L : List (List Char)), L ≠ [] → (∀ s ∈ L, sep ∉ s) →
      splitOnChar sep (joinWithChar sep L) = L
  | [], hne, _ => absurd rfl hne
  | [s], _, hfree => by
    have hj : joinWithChar sep [s] = s := rfl
    rw [hj]
    exact splitOnChar_sepFree sep s (hfree s (by simp))
  | s :: s' :: rest, _, hfree => by
    have hj : joinWithChar sep (s :: s' :: rest)
        = s ++ sep :: joinWithChar sep (s' :: rest) := rfl
    rw [hj, splitOnChar_append_sep sep s _ (hfree s (by simp))]
    rw [splitOnChar_joinWithChar sep (s' :: rest) (by simp)
      (fun x hx => hfree x (List.mem_cons_of_mem s hx))]

theorem splitOnChar_elems_sepFree (sep : Char) :
    ∀ (l : List Char), ∀ s ∈ splitOnChar sep l, sep ∉ s := by
  intro l
  induction l with
  | nil =>
    intro s hs
    simp [splitOnChar] at hs
    simp [hs]
  | cons c rest ih =>
    intro s hs
    unfold splitOnChar at hs
    by_cases hc : c = sep
    · rw [if_pos hc] at hs
      rcases List.mem_cons.mp hs with h | h
      · simp [h]
      · exact ih s h
    · rw [if_neg hc] at hs
      cases hsplit : splitOnChar sep rest with
      | nil => exact absurd hsplit (splitOnChar_ne_nil sep rest)
      | cons s0 ss =>
        rw [hsplit] at hs
        rcases List.mem_cons.mp hs with h | h
        · subst h
          intro hmem
          rcases List.mem_cons.mp hmem with h | h
          · exact hc h.symm
          · exact ih s0 (hsplit ▸ List.mem_cons_self s0 ss) h
        · exact ih s (hsplit ▸ List.mem_cons_of_mem s0 h)

theorem parseOctets_append (l₁ l₂ : List (List Char)) (o₁ o₂ : List Nat)
    (h₁ : parseOctets l₁ = some o₁) (h₂ : parseOctets l₂ = some o₂) :
    parseOctets (l₁ ++ l₂) = some (o₁ ++ o₂) := by
  induction l₁ generalizing o₁ with
  | nil =>
    rw [parseOctets] at h₁
    cases h₁
    simpa using h₂
  | cons s rest ih =>
    rw [parseOctets] at h₁
    cases ho : parseOctet s with
    | none => rw [ho] at h₁; simp at h₁
    | some o =>
      rw [ho] at h₁
      cases hos : parseOctets rest with
      | none => rw [hos] at h₁; simp at h₁
      | some os =>
        rw [hos] at h₁
        simp only [Option.some.injEq] at h₁
        show parseOctets (s :: (rest ++ l₂)) = _
        rw [parseOctets, ho, ih os hos]
        rw [← h₁]
        rfl

theorem parseOctets_replicate_zero (m : Nat) :
    parseOctets (List.replicate m ['0']) = some (List.replicate m 0) := by
  induction m with
  | zero => rfl
  | succ n ih =>
    rw [List.replicate_succ, List.replicate_succ, parseOctets, ih]
    rfl

theorem foldl_octets_replicate_zero (m : Nat) (a : Nat) :
    List.foldl (fun a o => a * 256 + o) a (List.replicate m 0) = a * 256 ^ m := by
  induction m generalizing a with
  | zero => simp
  | succ n ih =>
    rw [List.replicate_succ, List.foldl_cons, ih (a * 256 + 0)]
    ring

theorem ip_network_v4_padded (segs : List (List Char)) (octs : List Nat)
    (hlen : segs.length ≤ 4) (hne : segs ≠ [])
    (hocts : parseOctets segs = some octs)
    (hfree : ∀ s ∈ segs, '.' ∉ s) :
    ip_network_v4 (joinWithChar '.' (segs ++ List.replicate (4 - segs.length) ['0']))
        (8 * segs.length)
      = some (IPNet.v4 ((octs.foldl (fun a o => a * 256 + o) 0) * 256 ^ (4 - segs.length))
          (8 * segs.length)) := by
  have hfree' : ∀ s ∈ segs ++ List.replicate (4 - segs.length) ['0'], '.' ∉ s := by
    intro s hs
    rcases List.mem_append.mp hs with h | h
    · exact hfree s h
    · rw [List.eq_of_mem_replicate h]; decide
  have hne' : segs ++ List.replicate (4 - segs.length) ['0'] ≠ [] := by
    intro h
    exact hne (List.append_eq_nil.mp h).1
  have hlen4 : (segs ++ List.replicate (4 - segs.length) ['0']).length = 4 := by
    simp only [List.length_append, List.length_replicate]
    omega
  have hpars : parseOctets (segs ++ List.replicate (4 - segs.length) ['0'])
      = some (octs ++ List.replicate (4 - segs.length) 0) :=
    parseOctets_append _ _ _ _ hocts (parseOctets_replicate_zero _)
  have hval : (octs ++ List.replicate (4 - segs.length) 0).foldl (fun a o => a * 256 + o) 0
      = (octs.foldl (fun a o => a * 256 + o) 0) * 256 ^ (4 - segs.length) := by
    rw [List.foldl_append, foldl_octets_replicate_zero]
  have hp1 : 8 * segs.length ≤ 32 := by omega
  have hp2 : (octs.foldl (fun a o => a * 256 + o) 0) * 256 ^ (4 - segs.length)
      % 2 ^ (32 - 8 * segs.length) = 0 := by
    have h256 : (256 : Nat) ^ (4 - segs.length) = 2 ^ (32 - 8 * segs.length) := by
      have : (256 : Nat) = 2 ^ 8 := by norm_num
      rw [this, ← pow_mul]
      congr 1
      omega
    rw [h256, Nat.mul_mod_left]
  unfold ip_network_v4
  rw [splitOnChar_joinWithChar '.' _ hne' hfree']
  rw [if_pos hlen4, hpars]
  dsimp only
  rw [hval, if_pos]
  rw [Bool.and_eq_true]
  constructor
  · simpa using hp1
  · simpa using hp2

theorem toNetworkAux_v4_ok (mask : List Char) (octs : List Nat)
    (hchars : isV4MaskChars mask = true)
    (hlen : (splitOnChar '.' (rstripChar '.' mask)).length ≤ 4)
    (hocts : parseOctets (splitOnChar '.' (rstripChar '.' mask)) = some octs) :
    toNetworkAux mask
      = Except.ok (some (IPNet.v4
          ((octs.foldl (fun a o => a * 256 + o) 0)
            * 256 ^ (4 - (splitOnChar '.' (rstripChar '.' mask)).length))
          (8 * (splitOnChar '.' (rstripChar '.' mask)).length)), []) := by
  unfold toNetworkAux
  rw [if_pos hchars]
  dsimp only
  rw [if_pos hlen]
  rw [ip_network_v4_padded _ octs hlen (splitOnChar_ne_nil _ _) hocts
    (splitOnChar_elems_sepFree _ _)]

/-- C9 (amended): an IPv4 mask — digits and dots only after stripping — whose
dot-separated segments (after dropping trailing dots) number at most four and
each parse as a valid octet (one to three digits, value at most 255) is
normalized to the network obtained by zero-padding to four segments with
prefix length 8·k (global_settings.py lines 150-156); a mask with more than
four segments yields no network and only the "Skipped invalid mask" warning
(lines 164-166). -/
theorem C9_ipv4_mask_normalization (mask : String) :
    (∀ octs : List Nat,
      isV4MaskChars (pyStrip mask.data) = true →
      (splitOnChar '.' (rstripChar '.' (pyStrip mask.data))).length ≤ 4 →
      parseOctets (splitOnChar '.' (rstripChar '.' (pyStrip mask.data))) = some octs →
      _to_network mask = Except.ok (some (IPNet.v4
          ((octs.foldl (fun a o => a * 256 + o) 0)
            * 256 ^ (4 - (splitOnChar '.' (rstripChar '.' (pyStrip mask.data))).length))
          (8 * (splitOnChar '.' (rstripChar '.' (pyStrip mask.data))).length)), [])) ∧
    (isV4MaskChars (pyStrip mask.data) = true →
      4 < (splitOnChar '.' (rstripChar '.' (pyStrip mask.data))).length →
      _to_network mask = Except.ok (none,
        [LogMsg.warning ("Skipped invalid mask: "
            ++ String.mk (rstripChar '.' (pyStrip mask.data))) none])) := by
  constructor
  · intro octs h1 h2 h3
    unfold _to_network
    exact toNetworkAux_v4_ok _ octs h1 h2 h3
  · intro h1 h2
    unfold _to_network toNetworkAux
    rw [if_pos h1]
    dsimp only
    rw [if_neg (by omega)]

/-- C9 counterexample: the claim as stated maps every digits-and-dots mask of
at most four segments to a network, but on "300" — one segment, digits only —
the code raises an uncaught `ValueError` from `ip_network` (octet value above
255) instead of producing the network 300.0.0.0/8 or excluding the mask with
a warning. -/
theorem C9_counterexample : _to_network "300" = Except.error "ValueError" := rfl

/-- C9 witness: "192.168" is normalized to 192.168.0.0/16. -/
theorem C9_witness : _to_network "192.168" = Except.ok (some (IPNet.v4 3232235520 16), []) :=
  (C9_ipv4_mask_normalization "192.168").1 [192, 168] (by decide) (by decide) (by decide)
